import Mathlib

/-!
Verification of the extraction-and-caching engine of the
mcp-flutter-deprecations-server repository.

The Go sources under `internal/services` and `internal/models` are shallowly
embedded as executable Lean definitions:

* machine strings are modelled as Lean `String` (a wrapper over `List Char`);
  the Go byte-level string functions used by the code (`strings.Contains`,
  `strings.HasPrefix`, `strings.TrimSpace`, `strings.ToLower`, ...) are
  reimplemented over character lists (all scanned inputs are ASCII, where
  byte-level and character-level behaviour coincide);
* the regular expressions compiled via `regexp.MustCompile` are embedded as
  explicit syntax trees (`RE`) and executed by a backtracking matcher with
  leftmost-first preference, which is the submatch semantics of Go's
  `regexp` package (`FindStringSubmatch` / `FindAllStringSubmatch`);
* time instants (`time.Time`) are modelled as `Int` seconds since the Unix
  epoch; `time.Since` becomes integer subtraction and `AddDate` becomes
  proleptic-Gregorian calendar arithmetic;
* the I/O surrounding the pure logic (HTTP responses, the persisted cache
  file) is modelled by explicit value-level inputs (`HttpResp`, `CacheFile`,
  `UpdateEnv`), and JSON payloads by an explicit JSON value tree (`Jval`);
* Go iteration over the two hard-coded `map` literals
  (`getDeprecationPatterns`, the replacement-inference table) has an
  unspecified order; it is modelled as iteration over the list of entries in
  source-text order.  None of the proved statements depend on that order.
-/

set_option maxRecDepth 20000

namespace FlutterSrv

/-! ### Character-list string primitives (Go `strings` package) -/

/-- Go `unicode.IsSpace` restricted to the characters that can occur in the
scanned inputs (space, TAB, LF, VT, FF, CR, NEL, NBSP). -/
def isSpaceChar (c : Char) : Bool :=
  c == ' ' || ('\t' ≤ c && c ≤ '\x0d') || c == Char.ofNat 133 || c == Char.ofNat 160

/-- whether `needle` is a prefix of `hay` (Go `strings.HasPrefix`). -/
def isPrefixOfChars : List Char → List Char → Bool
  | [], _ => true
  | _ :: _, [] => false
  | a :: as, b :: bs => a == b && isPrefixOfChars as bs

/-- whether `needle` occurs as a contiguous substring (Go `strings.Contains`,
second argument of Go's function is the needle). -/
def containsChars (needle : List Char) : List Char → Bool
  | [] => isPrefixOfChars needle []
  | hay@(_ :: t) => isPrefixOfChars needle hay || containsChars needle t

/-- Go `strings.Contains code sub`. -/
def strContains (s sub : String) : Bool :=
  containsChars sub.data s.data

/-- Go `strings.HasPrefix`. -/
def strHasPrefix (s pre : String) : Bool :=
  isPrefixOfChars pre.data s.data

/-- Go `strings.HasSuffix`. -/
def strHasSuffix (s suf : String) : Bool :=
  isPrefixOfChars suf.data.reverse s.data.reverse

/-- Go `strings.TrimSpace`. -/
def strTrim (s : String) : String :=
  String.mk (((s.data.dropWhile isSpaceChar).reverse.dropWhile isSpaceChar).reverse)

/-- ASCII lower-casing of one character (all API names in play are ASCII). -/
def lowerChar (c : Char) : Char :=
  if 'A' ≤ c && c ≤ 'Z' then Char.ofNat (c.toNat + 32) else c

/-- Go `strings.ToLower` on ASCII data. -/
def strToLower (s : String) : String :=
  String.mk (s.data.map lowerChar)

/-- ASCII case flip, used for case-insensitive (`(?i)`) matching. -/
def flipCase (c : Char) : Char :=
  if 'a' ≤ c && c ≤ 'z' then Char.ofNat (c.toNat - 32)
  else if 'A' ≤ c && c ≤ 'Z' then Char.ofNat (c.toNat + 32)
  else c

/-! ### Regular expressions

`RE` is the abstract syntax of the (small) regex fragment used by the Go
sources: literal characters, character classes given by ranges (possibly
negated), concatenation, alternation, greedy/lazy Kleene star and numbered
capture groups.  `+`, `?` and literal strings are derived forms, mirroring
how Go's regexp engine parses them. -/

inductive RE where
  | eps : RE
  | chr : Char → RE
  | cls : Bool → List (Char × Char) → RE
  | cat : RE → RE → RE
  | alt : RE → RE → RE
  | star : Bool → RE → RE
  | grp : Nat → RE → RE
deriving DecidableEq, Repr

/-- concatenation of a list of regexes. -/
def rcat : List RE → RE
  | [] => RE.eps
  | [r] => r
  | r :: rs => RE.cat r (rcat rs)

/-- alternation of a list of regexes, first alternative preferred. -/
def ralts : List RE → RE
  | [] => RE.eps
  | [r] => r
  | r :: rs => RE.alt r (ralts rs)

/-- a literal string. -/
def rlit (s : String) : RE := rcat (s.data.map RE.chr)

/-- greedy `r*`. -/
def rstar (r : RE) : RE := RE.star false r

/-- greedy `r+`. -/
def rplus (r : RE) : RE := RE.cat r (RE.star false r)

/-- lazy `r+?`. -/
def rlazyPlus (r : RE) : RE := RE.cat r (RE.star true r)

/-- greedy `r?` (prefer presence). -/
def ropt (r : RE) : RE := RE.alt r RE.eps

/-- the ranges of `\w` = `[0-9A-Z_a-z]`. -/
def wordRanges : List (Char × Char) :=
  [('0', '9'), ('A', 'Z'), ('_', '_'), ('a', 'z')]

/-- the ranges of `\s` = `[\t\n\f\r ]` (RE2 Perl class). -/
def spaceRanges : List (Char × Char) :=
  [('\t', '\n'), ('\x0c', '\x0d'), (' ', ' ')]

/-- `\w`. -/
def wchar : RE := RE.cls false wordRanges

/-- `\s`. -/
def sp : RE := RE.cls false spaceRanges

/-- `.` (any character except newline). -/
def dotAny : RE := RE.cls true [('\n', '\n')]

/-! ### The backtracking matcher

`mrun` is a continuation-passing backtracking matcher; alternation prefers
the left branch, a greedy star prefers iterating and a lazy star prefers
stopping, which is exactly the leftmost-first submatch preference order of
Go's `regexp` package.  The `fuel` argument makes the recursion structural;
every quantified subexpression in the embedded patterns consumes at least
one character per iteration (the matcher additionally enforces progress in
`star`), so any fuel of at least `(size of the regex + input length + 2)^2`
is beyond what a search can consume. -/

/-- capture environment: group index ↦ captured characters (most recent
assignment first, as Go keeps the last write of a group). -/
abbrev Caps := List (Nat × List Char)

/-- read a capture group; an unset group reads as the empty string, as in
Go's `FindStringSubmatch` result. -/
def lookupCap : Caps → Nat → Option (List Char)
  | [], _ => none
  | (m, v) :: t, n => if m == n then some v else lookupCap t n

/-- capture group `n` as a `String`. -/
def capGet (caps : Caps) (n : Nat) : String :=
  String.mk ((lookupCap caps n).getD [])

/-- character-class membership. -/
def charInRanges (c : Char) : List (Char × Char) → Bool
  | [] => false
  | (lo, hi) :: rs => (lo ≤ c && c ≤ hi) || charInRanges c rs

/-- single-character match, with ASCII case folding when `ci` is set. -/
def chrMatches (ci : Bool) (pat c : Char) : Bool :=
  pat == c || (ci && flipCase c == pat)

/-- class match, with ASCII case folding when `ci` is set. -/
def clsMatches (ci neg : Bool) (rs : List (Char × Char)) (c : Char) : Bool :=
  let inR := charInRanges c rs || (ci && charInRanges (flipCase c) rs)
  if neg then !inR else inR

/-- the CPS backtracking matcher.  The continuation receives the remaining
input and the capture environment; the overall result carries the captures
and the input remaining after the match. -/
def mrun (ci : Bool) : Nat → RE → List Char → Caps →
    (List Char → Caps → Option (Caps × List Char)) → Option (Caps × List Char)
  | 0, _, _, _, _ => none
  | fuel + 1, re, s, caps, k =>
    match re with
    | .eps => k s caps
    | .chr c =>
      match s with
      | [] => none
      | a :: rest => if chrMatches ci c a then k rest caps else none
    | .cls neg rs =>
      match s with
      | [] => none
      | a :: rest => if clsMatches ci neg rs a then k rest caps else none
    | .cat r1 r2 =>
      mrun ci fuel r1 s caps (fun s1 caps1 => mrun ci fuel r2 s1 caps1 k)
    | .alt r1 r2 =>
      match mrun ci fuel r1 s caps k with
      | some res => some res
      | none => mrun ci fuel r2 s caps k
    | .star lazyQ r =>
      if lazyQ then
        match k s caps with
        | some res => some res
        | none =>
          mrun ci fuel r s caps (fun s1 caps1 =>
            if s1.length < s.length then mrun ci fuel (.star lazyQ r) s1 caps1 k else none)
      else
        match mrun ci fuel r s caps (fun s1 caps1 =>
            if s1.length < s.length then mrun ci fuel (.star lazyQ r) s1 caps1 k else none) with
        | some res => some res
        | none => k s caps
    | .grp n r =>
      mrun ci fuel r s caps (fun s1 caps1 =>
        k s1 ((n, s.take (s.length - s1.length)) :: caps1))

/-- size of a regex tree, used to compute a sufficient fuel. -/
def reSize : RE → Nat
  | .eps => 1
  | .chr _ => 1
  | .cls _ _ => 1
  | .cat a b => reSize a + reSize b + 1
  | .alt a b => reSize a + reSize b + 1
  | .star _ r => reSize r + 1
  | .grp _ r => reSize r + 1

/-- sufficient fuel for matching `re` against `s`. -/
def fuelFor (re : RE) (s : List Char) : Nat :=
  (reSize re + s.length + 2) * (reSize re + 2)

/-- try to match `re` exactly at the start of `s`. -/
def matchAt (ci : Bool) (re : RE) (s : List Char) : Option (Caps × List Char) :=
  mrun ci (fuelFor re s) re s [] (fun s1 caps => some (caps, s1))

/-- leftmost match: try successive start positions, as Go's `regexp` does. -/
def searchFrom (ci : Bool) (re : RE) : List Char → Option (Caps × List Char)
  | [] => matchAt ci re []
  | s@(_ :: rest) =>
    match matchAt ci re s with
    | some res => some res
    | none => searchFrom ci re rest

/-- Go `re.FindStringSubmatch s`, keeping only the capture groups (the Go
code consults `matches[1]`, `matches[2]` and the always-satisfied length
bound, never the whole-match text). -/
def findSub (ci : Bool) (re : RE) (s : String) : Option Caps :=
  (searchFrom ci re s.data).map (·.1)

/-- Go `re.MatchString s`. -/
def reMatches (ci : Bool) (re : RE) (s : String) : Bool :=
  (findSub ci re s).isSome

/-- all successive non-overlapping leftmost matches
(Go `FindAllStringSubmatch s (-1)`); every embedded pattern consumes at
least one character, so the empty-match advancement case is unreachable but
kept for faithfulness to Go's iteration. -/
def findAllAux (ci : Bool) (re : RE) : Nat → List Char → List Caps
  | 0, _ => []
  | fuel + 1, s =>
    match searchFrom ci re s with
    | none => []
    | some (caps, s1) =>
      caps ::
        (if s1.length < s.length then findAllAux ci re fuel s1
         else match s1 with
           | [] => []
           | _ :: t => findAllAux ci re fuel t)

/-- Go `re.FindAllStringSubmatch s (-1)`, capture groups of each match. -/
def findAll (ci : Bool) (re : RE) (s : String) : List Caps :=
  findAllAux ci re (s.length + 1) s.data

/-! ### Data model (`internal/models/flutter.go`) -/

/-- `models.Deprecation`. -/
structure Deprecation where
  api : String
  replacement : String
  version : String
  description : String
  exampleStr : String
deriving DecidableEq, Repr

/-- `models.DeprecationCache`; `LastUpdated` is seconds since the epoch. -/
structure DeprecationCache where
  lastUpdated : Int
  deprecations : List Deprecation
deriving DecidableEq, Repr

/-- `models.FlutterRelease`. -/
structure FlutterRelease where
  name : String
  tagName : String
  publishedAt : String
  body : String
  prerelease : Bool
deriving DecidableEq, Repr

/-! ### The Known-Pattern Table (`deprecations.go`, `getDeprecationPatterns`)

The Go function returns a `map[string]models.Deprecation` literal; it is
embedded as the list of its entries in source-text order, each entry pairing
the compiled key regex with its record.  Iteration order over the Go map is
unspecified and no statement below depends on the list order. -/

/-- regex `Color\.\w+\.withOpacity\(([^)]+)\)`. -/
def colorWithOpacityRE : RE :=
  rcat [rlit "Color.", rplus wchar, rlit ".withOpacity(",
        RE.grp 1 (rplus (RE.cls true [(')', ')')])), RE.chr ')']

/-- `Color.withOpacity` entry. -/
def colorPair : RE × Deprecation :=
  (colorWithOpacityRE,
   { api := "Color.withOpacity"
     replacement := "Color.withValues(alpha: $1)"
     version := ""
     description := "withOpacity is deprecated, use withValues instead"
     exampleStr := "Color.red.withOpacity(0.5) → Color.red.withValues(alpha: 0.5)" })

/-- `RaisedButton` entry. -/
def raisedPair : RE × Deprecation :=
  (rlit "RaisedButton",
   { api := "RaisedButton"
     replacement := "ElevatedButton"
     version := ""
     description := "RaisedButton is deprecated, use ElevatedButton instead"
     exampleStr := "RaisedButton → ElevatedButton" })

/-- `FlatButton` entry. -/
def flatPair : RE × Deprecation :=
  (rlit "FlatButton",
   { api := "FlatButton"
     replacement := "TextButton"
     version := ""
     description := "FlatButton is deprecated, use TextButton instead"
     exampleStr := "FlatButton → TextButton" })

/-- `OutlineButton` entry. -/
def outlinePair : RE × Deprecation :=
  (rlit "OutlineButton",
   { api := "OutlineButton"
     replacement := "OutlinedButton"
     version := ""
     description := "OutlineButton is deprecated, use OutlinedButton instead"
     exampleStr := "OutlineButton → OutlinedButton" })

/-- `Scaffold\.of\(context\)\.showSnackBar` entry. -/
def scaffoldPair : RE × Deprecation :=
  (rlit "Scaffold.of(context).showSnackBar",
   { api := "Scaffold.of(context).showSnackBar"
     replacement := "ScaffoldMessenger.of(context).showSnackBar"
     version := ""
     description := "Direct showSnackBar on Scaffold is deprecated"
     exampleStr := "Scaffold.of(context).showSnackBar → ScaffoldMessenger.of(context).showSnackBar" })

/-- `FloatingActionButton\(child:` entry. -/
def fabPair : RE × Deprecation :=
  (rlit "FloatingActionButton(child:",
   { api := "FloatingActionButton(child:"
     replacement := "FloatingActionButton with specific constructors"
     version := ""
     description := "Consider using FloatingActionButton.extended or other specific constructors"
     exampleStr := "" })

/-- `getDeprecationPatterns` as a list of (regex, record) entries. -/
def knownPatterns : List (RE × Deprecation) :=
  [colorPair, raisedPair, flatPair, outlinePair, scaffoldPair, fabPair]

/-! ### The Code Matcher (`deprecations.go`, `CheckCodeForDeprecations`)

The matcher takes the snippet and the result of `cacheService.Load()` (an
explicit input, since loading is I/O): pattern pass first, then — only when
the load succeeded — the substring pass over the cached entries. -/

/-- `CheckCodeForDeprecations`. -/
def CheckCodeForDeprecations (code : String)
    (loadResult : Except String DeprecationCache) : List Deprecation :=
  ((knownPatterns.filter (fun p => reMatches false p.1 code)).map (·.2))
    ++
  (match loadResult with
   | .ok cache => cache.deprecations.filter (fun d => d.api != "" && strContains code d.api)
   | .error _ => [])

/-! ### The Annotation Scanner (`flutter_api.go`, `ScanFileForDeprecations`)

The Go function fetches a file and scans its lines; the pure scanning logic
is embedded as a function of the line list.  The seven regexes below are the
ones compiled at the top of the function. -/

/-- `[\w<>?]`, the type-ish character class of the method/property/getter
patterns. -/
def wq : RE := RE.cls false (wordRanges ++ [('<', '<'), ('>', '>'), ('?', '?')])

/-- the quote class `['"]`. -/
def quoteCls : RE := RE.cls false [(Char.ofNat 39, Char.ofNat 39), ('"', '"')]

/-- regex `@[Dd]eprecated\s*\(\s*['"](.+?)['"]`. -/
def deprecatedRE : RE :=
  rcat [RE.chr '@', RE.cls false [('D', 'D'), ('d', 'd')], rlit "eprecated",
        rstar sp, RE.chr '(', rstar sp, quoteCls,
        RE.grp 1 (rlazyPlus dotAny), quoteCls]

/-- regex `(?:abstract\s+)?(?:class|enum|mixin)\s+(\w+)`. -/
def classRE : RE :=
  rcat [ropt (rcat [rlit "abstract", rplus sp]),
        ralts [rlit "class", rlit "enum", rlit "mixin"],
        rplus sp, RE.grp 1 (rplus wchar)]

/-- regex `(?:(?:static|final|const)\s+)*(?:[\w<>?]+\s+)?(\w+)\s*\(`. -/
def methodRE : RE :=
  rcat [rstar (rcat [ralts [rlit "static", rlit "final", rlit "const"], rplus sp]),
        ropt (rcat [rplus wq, rplus sp]),
        RE.grp 1 (rplus wchar), rstar sp, RE.chr '(']

/-- regex `(\w+)\s*\.\s*(\w+)\s*\(`. -/
def ctorRE : RE :=
  rcat [RE.grp 1 (rplus wchar), rstar sp, RE.chr '.', rstar sp,
        RE.grp 2 (rplus wchar), rstar sp, RE.chr '(']

/-- regex `(?:(?:static|final|const)\s+)*(?:[\w<>?]+\s+)+(get\s+)?(\w+)(?:\s*[;=]|\s*=>)`. -/
def propertyRE : RE :=
  rcat [rstar (rcat [ralts [rlit "static", rlit "final", rlit "const"], rplus sp]),
        rplus (rcat [rplus wq, rplus sp]),
        ropt (RE.grp 1 (rcat [rlit "get", rplus sp])),
        RE.grp 2 (rplus wchar),
        RE.alt (rcat [rstar sp, RE.cls false [(';', ';'), ('=', '=')]])
               (rcat [rstar sp, rlit "=>"])]

/-- regex `(?:[\w<>?]+\s+)?get\s+(\w+)\s*(?:=>|{)`. -/
def getterRE : RE :=
  rcat [ropt (rcat [rplus wq, rplus sp]), rlit "get", rplus sp,
        RE.grp 1 (rplus wchar), rstar sp,
        RE.alt (rlit "=>") (RE.chr (Char.ofNat 123))]

/-- regex `set\s+(\w+)\s*\(`. -/
def setterRE : RE :=
  rcat [rlit "set", rplus sp, RE.grp 1 (rplus wchar), rstar sp, RE.chr '(']

/-! #### Replacement extraction (`extractReplacement`, `InferReplacement`) -/

/-- the class `[A-Za-z0-9_.()]` of the replacement-extraction patterns
(the range `'('..')'` covers both parentheses). -/
def replCls : RE :=
  RE.cls false [('(', ')'), ('.', '.'), ('0', '9'), ('A', 'Z'), ('_', '_'), ('a', 'z')]

/-- regex `(?i)use\s+([A-Za-z0-9_.()]+)(?:\s+instead)?`. -/
def useInsteadRE : RE :=
  rcat [rlit "use", rplus sp, RE.grp 1 (rplus replCls),
        ropt (rcat [rplus sp, rlit "instead"])]

/-- regex `(?i)replaced\s+by\s+([A-Za-z0-9_.()]+)`. -/
def replacedByRE : RE :=
  rcat [rlit "replaced", rplus sp, rlit "by", rplus sp, RE.grp 1 (rplus replCls)]

/-- regex `(?i)use\s+(?:the\s+)?([A-Za-z0-9_.()]+)\s+method`. -/
def useMethodRE : RE :=
  rcat [rlit "use", rplus sp, ropt (rcat [rlit "the", rplus sp]),
        RE.grp 1 (rplus replCls), rplus sp, rlit "method"]

/-- regex `(?i)prefer\s+([A-Za-z0-9_.()]+)`. -/
def preferRE : RE :=
  rcat [rlit "prefer", rplus sp, RE.grp 1 (rplus replCls)]

/-- `extractReplacement`: the four natural-language patterns, tried in
source order, all case-insensitive; empty string when none matches. -/
def extractReplacement (description : String) : String :=
  match findSub true useInsteadRE description with
  | some caps => capGet caps 1
  | none =>
    match findSub true replacedByRE description with
    | some caps => capGet caps 1
    | none =>
      match findSub true useMethodRE description with
      | some caps => capGet caps 1
      | none =>
        match findSub true preferRE description with
        | some caps => capGet caps 1
        | none => ""

/-- the `patterns` map literal of `InferReplacement`, as its entries in
source-text order (Go map iteration order is unspecified; the order is
irrelevant unless an API name contains several keys). -/
def inferTable : List (String × String) :=
  [("withopacity", "withValues(alpha: value)"),
   ("color.withopacity", "color.withValues(alpha: value)"),
   ("raisedbutton", "ElevatedButton"),
   ("flatbutton", "TextButton"),
   ("outlinebutton", "OutlinedButton"),
   ("materialbutton", "ElevatedButton, TextButton, or OutlinedButton"),
   ("floatingactionbutton.mini", "FloatingActionButton(mini: true)"),
   ("navigator.of(context).push", "Navigator.push(context, route)"),
   ("navigator.of(context).pop", "Navigator.pop(context)"),
   ("scaffold.of(context).showsnackbar", "ScaffoldMessenger.of(context).showSnackBar"),
   ("text.overflow", "Text with overflow parameter"),
   ("textstyle.height", "TextStyle.height or TextHeightBehavior"),
   ("wrap.direction", "Wrap.direction parameter"),
   ("flex.direction", "Flex.direction parameter"),
   ("animationcontroller.reset", "AnimationController.reset() alternative"),
   ("tween.animate", "Tween.animate() or AnimatedBuilder"),
   ("positioned.fill", "Positioned.fill() constructor"),
   ("expanded.flex", "Expanded(flex: value)"),
   ("flexible.flex", "Flexible(flex: value)")]

/-- `InferReplacement`. -/
def InferReplacement (apiName description : String) : String :=
  let desc := strToLower description
  let api := strToLower apiName
  match inferTable.find? (fun p => strContains api p.1) with
  | some p => p.2
  | none =>
    if strContains desc "will lead to bugs" || strContains desc "causes issues" then
      if strContains api "jump" || strContains api "scroll" then
        "Use ScrollController methods or ScrollPosition alternatives"
      else
        "Alternative implementation recommended - see Flutter documentation"
    else if strContains desc "performance" then
      "More efficient alternative available - check Flutter performance guide"
    else if strContains desc "accessibility" then
      "Use semantically improved alternative for better accessibility"
    else if strHasSuffix api "withoutsettling" then
      "Use standard navigation/animation methods that properly settle"
    else if strContains api "copywidth" || strContains api "copyheight" then
      "Use copyWith() with specific dimension parameters"
    else if strContains api "button" then
      "Use Material 3 button alternatives (ElevatedButton, TextButton, OutlinedButton)"
    else if strContains api "color" then
      "Use updated Color API with values() constructor"
    else if strContains api "theme" then
      "Use Material 3 ThemeData with updated color scheme"
    else
      ""

/-! #### The per-marker scan -/

/-- the skip test of the forward loop: empty lines, comments and further
annotations. -/
def skipLine (l : String) : Bool :=
  l == "" || strHasPrefix l "//" || strHasPrefix l "/*" || strHasPrefix l "@"

/-- the control-flow keywords excluded in the method branch. -/
def isCtrlKeyword (m : String) : Bool :=
  m == "if" || m == "for" || m == "while" || m == "switch" || m == "return" || m == "throw"

/-- the construct-resolution if/else chain of the forward loop applied to
one (already trimmed) line: `some api` means the loop breaks with that
symbol, `none` means it moves to the next line.  A method match whose name
is a control-flow keyword yields `none` (no break in the Go code). -/
def resolveLine (className l : String) : Option String :=
  match findSub false classRE l with
  | some caps => some (capGet caps 1)
  | none =>
    match findSub false ctorRE l with
    | some caps => some (capGet caps 1 ++ "." ++ capGet caps 2)
    | none =>
      match findSub false getterRE l with
      | some caps =>
        some (if className != "" then className ++ "." ++ capGet caps 1 else capGet caps 1)
      | none =>
        match findSub false setterRE l with
        | some caps =>
          some (if className != "" then className ++ "." ++ capGet caps 1 else capGet caps 1)
        | none =>
          match findSub false methodRE l with
          | some caps =>
            let m := capGet caps 1
            if isCtrlKeyword m then none
            else some (if className != "" && m != className then className ++ "." ++ m else m)
          | none =>
            match findSub false propertyRE l with
            | some caps =>
              some (if className != "" then className ++ "." ++ capGet caps 2 else capGet caps 2)
            | none => none

/-- the forward loop `for j := i+1; j < len(lines) && j <= i+10; j++`,
with `rem` the remaining window size (10 at entry).  Indexing out of range
reads as the empty line, which the loop skips — this coincides with the Go
loop simply terminating at `j = len(lines)` since `j` only increases. -/
def forwardScan (className : String) (lines : List String) : Nat → Nat → String
  | _, 0 => ""
  | j, rem + 1 =>
    let l := strTrim (lines.getD j "")
    if skipLine l then forwardScan className lines (j + 1) rem
    else
      match resolveLine className l with
      | some api => api
      | none => forwardScan className lines (j + 1) rem

/-- the backward loop `for j := i-1; j >= 0 && j >= i-50; j--` looking for
the enclosing class; `rem` is the remaining window size (50 at entry). -/
def backAux (lines : List String) : Nat → Nat → String
  | _, 0 => ""
  | j, rem + 1 =>
    match findSub false classRE (strTrim (lines.getD j "")) with
    | some caps => capGet caps 1
    | none =>
      match j with
      | 0 => ""
      | jj + 1 => backAux lines jj rem

/-- the class context of the marker at line `i`. -/
def backwardClass (lines : List String) (i : Nat) : String :=
  match i with
  | 0 => ""
  | ii + 1 => backAux lines ii 50

/-- the body of the scan loop for index `i`: `some record` when the line is
a deprecation marker that resolves to a construct, `none` otherwise. -/
def scanAt (lines : List String) (i : Nat) : Option Deprecation :=
  match findSub false deprecatedRE (strTrim (lines.getD i "")) with
  | none => none
  | some mcaps =>
    let description := capGet mcaps 1
    let className := backwardClass lines i
    let apiName := forwardScan className lines (i + 1) 10
    if apiName == "" then none
    else
      let r := extractReplacement description
      let r := if r == "" then InferReplacement apiName description else r
      some { api := apiName, replacement := r, version := "",
             description := description, exampleStr := "" }

/-- `ScanFileForDeprecations` on the fetched line list: markers are
independent of each other in the Go loop, so the output is the in-order
concatenation of the per-marker results. -/
def ScanFileForDeprecations (lines : List String) : List Deprecation :=
  (List.range lines.length).filterMap (scanAt lines)

/-! ### Time (`time` package)

Instants are `Int` seconds since the Unix epoch.  Calendar conversion uses
the standard proleptic-Gregorian day-count algorithm, which is what Go's
`time` package computes; `AddDate` normalisation (month out of range rolls
the year, day out of range rolls the month) is reproduced by the floor
divisions and by `daysFromCivil` being linear in the day argument. -/

/-- days since 1970-01-01 of the (possibly day-overflowed) civil date. -/
def daysFromCivil (y m d : Int) : Int :=
  let y1 := if m ≤ 2 then y - 1 else y
  let era := Int.fdiv y1 400
  let yoe := y1 - era * 400
  let mp := if m > 2 then m - 3 else m + 9
  let doy := Int.fdiv (153 * mp + 2) 5 + d - 1
  let doe := yoe * 365 + Int.fdiv yoe 4 - Int.fdiv yoe 100 + doy
  era * 146097 + doe - 719468

/-- civil date (year, month, day) of a day count since 1970-01-01. -/
def civilFromDays (z0 : Int) : Int × Int × Int :=
  let z := z0 + 719468
  let era := Int.fdiv z 146097
  let doe := z - era * 146097
  let yoe := Int.fdiv (doe - Int.fdiv doe 1460 + Int.fdiv doe 36524 - Int.fdiv doe 146096) 365
  let y := yoe + era * 400
  let doy := doe - (365 * yoe + Int.fdiv yoe 4 - Int.fdiv yoe 100)
  let mp := Int.fdiv (5 * doy + 2) 153
  let d := doy - Int.fdiv (153 * mp + 2) 5 + 1
  let m := if mp < 10 then mp + 3 else mp - 9
  (if m ≤ 2 then y + 1 else y, m, d)

/-- Go `t.AddDate 0 k 0`: shift by `k` calendar months, preserving the time
of day, with Go's `time.Date` normalisation. -/
def addMonths (t k : Int) : Int :=
  let days := Int.fdiv t 86400
  let rem := t - days * 86400
  match civilFromDays days with
  | (y, m, d) =>
    let m1 := m + k
    let ym := Int.fdiv (m1 - 1) 12
    daysFromCivil (y + ym) (m1 - 1 - ym * 12 + 1) d * 86400 + rem

/-- number of days of a month, for `time.Parse` range validation. -/
def daysInMonth (y m : Int) : Int :=
  if m == 2 then
    (if Int.emod y 4 == 0 && (Int.emod y 100 != 0 || Int.emod y 400 == 0) then 29 else 28)
  else if m == 4 || m == 6 || m == 9 || m == 11 then 30
  else 31

/-- read exactly `n` decimal digits, most significant first. -/
def takeDigits : Nat → List Char → Option (Int × List Char)
  | 0, cs => some (0, cs)
  | _ + 1, [] => none
  | n + 1, c :: cs =>
    if '0' ≤ c && c ≤ '9' then
      match takeDigits n cs with
      | some (v, rest) => some (((c.toNat - 48 : Nat) : Int) * 10 ^ n + v, rest)
      | none => none
    else none

/-- read one expected character. -/
def expectChar (c : Char) : List Char → Option (List Char)
  | [] => none
  | a :: rest => if a == c then some rest else none

/-- drop the remaining fraction digits. -/
def dropFracDigits : List Char → List Char
  | c :: cs => if '0' ≤ c && c ≤ '9' then dropFracDigits cs else c :: cs
  | [] => []

/-- drop an optional fractional-seconds part `.digits+` (the embedding
works at second granularity). -/
def dropFrac : List Char → List Char
  | '.' :: c :: cs =>
    if '0' ≤ c && c ≤ '9' then dropFracDigits cs else '.' :: c :: cs
  | cs => cs

/-- parse the zone suffix `Z` or `±HH:MM`, returning the offset seconds. -/
def parseZone : List Char → Option (Int × List Char)
  | 'Z' :: rest => some (0, rest)
  | c :: cs =>
    if c == '+' || c == '-' then
      match takeDigits 2 cs with
      | some (h, cs1) =>
        match expectChar ':' cs1 with
        | some cs2 =>
          match takeDigits 2 cs2 with
          | some (mi, cs3) =>
            let off := h * 3600 + mi * 60
            some (if c == '-' then -off else off, cs3)
          | none => none
        | none => none
      | none => none
    else none
  | [] => none

/-- Go `time.Parse time.RFC3339 s` reduced to epoch seconds: `none` models
a parse error (which `isVersionFromLast18Months` maps to `false`). -/
def parseRFC3339 (s : String) : Option Int :=
  match takeDigits 4 s.data with
  | none => none
  | some (y, c1) =>
    match expectChar '-' c1 with
    | none => none
    | some c2 =>
      match takeDigits 2 c2 with
      | none => none
      | some (mo, c3) =>
        match expectChar '-' c3 with
        | none => none
        | some c4 =>
          match takeDigits 2 c4 with
          | none => none
          | some (d, c5) =>
            match expectChar 'T' c5 with
            | none => none
            | some c6 =>
              match takeDigits 2 c6 with
              | none => none
              | some (h, c7) =>
                match expectChar ':' c7 with
                | none => none
                | some c8 =>
                  match takeDigits 2 c8 with
                  | none => none
                  | some (mi, c9) =>
                    match expectChar ':' c9 with
                    | none => none
                    | some c10 =>
                      match takeDigits 2 c10 with
                      | none => none
                      | some (sec, c11) =>
                        match parseZone (dropFrac c11) with
                        | none => none
                        | some (off, c12) =>
                          if c12.isEmpty &&
                             1 ≤ mo && mo ≤ 12 && 1 ≤ d && d ≤ daysInMonth y mo &&
                             h ≤ 23 && mi ≤ 59 && sec ≤ 59 then
                            some (daysFromCivil y mo d * 86400
                                  + h * 3600 + mi * 60 + sec - off)
                          else none

/-! ### Release-notes extraction (`deprecations.go`) -/

/-- `isVersionFromLast18Months` with the current instant explicit:
`publishTime.After(now.AddDate(0, -18, 0))`, and `false` on parse error. -/
def isVersionFromLast18Months (now : Int) (publishedAt : String) : Bool :=
  match parseRFC3339 publishedAt with
  | none => false
  | some t => addMonths now (-18) < t

/-- `ParseVersionFromRelease`: `strings.TrimPrefix(tag, "v")`. -/
def ParseVersionFromRelease (r : FlutterRelease) : String :=
  if strHasPrefix r.tagName "v" then String.mk (r.tagName.data.drop 1) else r.tagName

/-- the class `[:\s]` of the first harvest pattern. -/
def colonSpCls : RE := RE.cls false ([(':', ':')] ++ spaceRanges)

/-- the class `[,\s]` of the second harvest pattern. -/
def commaSpCls : RE := RE.cls false ([(',', ',')] ++ spaceRanges)

/-- the identifier shape `[A-Z][a-zA-Z0-9_.]*` of the harvest patterns. -/
def idShape : RE :=
  RE.cat (RE.cls false [('A', 'Z')])
         (rstar (RE.cls false [('.', '.'), ('0', '9'), ('A', 'Z'), ('_', '_'), ('a', 'z')]))

/-- regex `(?i)deprecated[:\s]+([A-Z][a-zA-Z0-9_.]*)\s*(?:in favor of|replaced by|use)\s+([A-Z][a-zA-Z0-9_.]*)`. -/
def harvestRE1 : RE :=
  rcat [rlit "deprecated", rplus colonSpCls, RE.grp 1 idShape, rstar sp,
        ralts [rlit "in favor of", rlit "replaced by", rlit "use"],
        rplus sp, RE.grp 2 idShape]

/-- regex `(?i)([A-Z][a-zA-Z0-9_.]*)\s+(?:is\s+)?deprecated[,\s]*(?:use|replaced by)\s+([A-Z][a-zA-Z0-9_.]*)`. -/
def harvestRE2 : RE :=
  rcat [RE.grp 1 idShape, rplus sp, ropt (rcat [rlit "is", rplus sp]),
        rlit "deprecated", rstar commaSpCls,
        ralts [rlit "use", rlit "replaced by"], rplus sp, RE.grp 2 idShape]

/-- regex `(?i)\*\*Breaking change\*\*[^*]*deprecated[^*]*([A-Z][a-zA-Z0-9_.]*)[^*]*([A-Z][a-zA-Z0-9_.]*)?`. -/
def harvestRE3 : RE :=
  rcat [rlit "**Breaking change**", rstar (RE.cls true [('*', '*')]),
        rlit "deprecated", rstar (RE.cls true [('*', '*')]),
        RE.grp 1 idShape, rstar (RE.cls true [('*', '*')]),
        ropt (RE.grp 2 idShape)]

/-- the `patterns` slice of `ExtractDeprecationsFromReleaseNotes`. -/
def harvestPatterns : List RE := [harvestRE1, harvestRE2, harvestRE3]

/-- explicit concat-map (Go nested `for` loops with `append`). -/
def concatMap (f : α → List β) : List α → List β
  | [] => []
  | a :: t => f a ++ concatMap f t

/-- the records one release contributes: skipped entirely unless published
within 18 months, otherwise one record per regex match that survives the
plausibility filter `len(api) >= 3 && (contains "." || len(api) >= 5)`
(`len` is a byte count in Go; the harvested names are ASCII). -/
def releaseDeps (now : Int) (r : FlutterRelease) : List Deprecation :=
  if !isVersionFromLast18Months now r.publishedAt then []
  else
    let version := ParseVersionFromRelease r
    concatMap (fun re =>
      (findAll true re r.body).filterMap (fun caps =>
        let api := strTrim (capGet caps 1)
        let replacement := if capGet caps 2 != "" then strTrim (capGet caps 2) else ""
        if api.length < 3 || (!strContains api "." && api.length < 5) then none
        else some { api := api, replacement := replacement, version := version,
                    description := "Deprecated in Flutter " ++ version,
                    exampleStr := "" }))
      harvestPatterns

/-- the regex-harvest part of `ExtractDeprecationsFromReleaseNotes`
(the outer loop over releases). -/
def harvestFromReleases (now : Int) (rs : List FlutterRelease) : List Deprecation :=
  concatMap (releaseDeps now) rs

/-- the Known-Pattern Table entries stamped `Version = "Multiple versions"`,
appended at the end of every extraction. -/
def stampedKnownDeps : List Deprecation :=
  knownPatterns.map (fun p => { p.2 with version := "Multiple versions" })

/-- `ExtractDeprecationsFromReleaseNotes`. -/
def ExtractDeprecationsFromReleaseNotes (now : Int) (rs : List FlutterRelease) :
    List Deprecation :=
  harvestFromReleases now rs ++ stampedKnownDeps

/-! ### The Refresh Orchestrator (`deprecations.go`, `UpdateCache`)

`UpdateCache` interacts with the world through `cacheService.Load`,
`time.Now`, `apiService.FetchReleases` and `cacheService.Save`; those four
interactions are the fields of `UpdateEnv` (the two `time.Now()` readings of
a run are merged into one instant, their difference being I/O latency).  The
outcome records the returned error value, how many times `FetchReleases` was
invoked, and the cache value handed to `Save` (if any). -/

/-- `config.CACHE_DURATION` = 24 hours, in seconds. -/
def CACHE_DURATION : Int := 24 * 3600

/-- the environment of one `UpdateCache` run. -/
structure UpdateEnv where
  loadResult : Except String DeprecationCache
  now : Int
  fetchResult : Except String (List FlutterRelease)
  saveResult : Except String Unit

/-- the observable outcome of one `UpdateCache` run. -/
structure UpdateOutcome where
  result : Except String Unit
  fetchCount : Nat
  saved : Option DeprecationCache

/-- `UpdateCache`. -/
def UpdateCache (env : UpdateEnv) : UpdateOutcome :=
  match env.loadResult with
  | .error e => ⟨.error e, 0, none⟩
  | .ok cache =>
    if env.now - cache.lastUpdated < CACHE_DURATION then ⟨.ok (), 0, none⟩
    else
      match env.fetchResult with
      | .error e => ⟨.error e, 1, none⟩
      | .ok releases =>
        let deps := ExtractDeprecationsFromReleaseNotes env.now releases
        ⟨env.saveResult, 1, some ⟨env.now, deps⟩⟩

/-! ### JSON values (`encoding/json`)

JSON payloads are modelled as value trees; `json.Marshal` of the cache is
the explicit encoder below and `json.Unmarshal` the explicit decoder, with
Go's struct-unmarshalling rules: a missing object key leaves the zero value,
a key of the wrong type is an unmarshalling error, `null` unmarshals to the
zero value, unknown keys are ignored.  Timestamps are encoded as their
integer value (the `Int` model of `time.Time`; Go's RFC 3339 text encoding
of `time.Time` is likewise injective on instants). -/

inductive Jval where
  | null : Jval
  | bool : Bool → Jval
  | num : Int → Jval
  | str : String → Jval
  | arr : List Jval → Jval
  | obj : List (String × Jval) → Jval

/-- key lookup in an object (the encoder never emits duplicate keys). -/
def jLookup (kvs : List (String × Jval)) (k : String) : Option Jval :=
  match kvs with
  | [] => none
  | (k1, v) :: t => if k1 == k then some v else jLookup t k

/-- unmarshal a string field: missing ↦ zero value `""`, wrong type ↦
error (`none`). -/
def getStrField (kvs : List (String × Jval)) (k : String) : Option String :=
  match jLookup kvs k with
  | none => some ""
  | some (.str s) => some s
  | some _ => none

/-- unmarshal a bool field: missing ↦ `false`, wrong type ↦ error. -/
def getBoolField (kvs : List (String × Jval)) (k : String) : Option Bool :=
  match jLookup kvs k with
  | none => some false
  | some (.bool b) => some b
  | some _ => none

/-! ### The Cache Store (`cache.go`)

The persisted file is modelled by `CacheFile`: absent, unreadable, textually
malformed (unparseable as JSON), or a parsed JSON value. -/

/-- the states of the persisted cache file. -/
inductive CacheFile where
  | missing : CacheFile
  | readError : String → CacheFile
  | malformed : CacheFile
  | valid : Jval → CacheFile

/-- the cache value Go builds for the missing/unparseable cases:
`&models.DeprecationCache{Deprecations: []models.Deprecation{}}`. -/
def emptyCache : DeprecationCache := ⟨0, []⟩

/-- encoder of one `models.Deprecation` per its struct tags
(`example,omitempty`). -/
def encodeDep (d : Deprecation) : Jval :=
  .obj ([("api", .str d.api), ("replacement", .str d.replacement),
         ("version", .str d.version), ("description", .str d.description)]
        ++ (if d.exampleStr == "" then [] else [("example", .str d.exampleStr)]))

/-- decoder of one `models.Deprecation`. -/
def decodeDep (j : Jval) : Option Deprecation :=
  match j with
  | .null => some ⟨"", "", "", "", ""⟩
  | .obj kvs =>
    match getStrField kvs "api" with
    | none => none
    | some api =>
      match getStrField kvs "replacement" with
      | none => none
      | some rep =>
        match getStrField kvs "version" with
        | none => none
        | some ver =>
          match getStrField kvs "description" with
          | none => none
          | some des =>
            match getStrField kvs "example" with
            | none => none
            | some ex => some ⟨api, rep, ver, des, ex⟩
  | _ => none

/-- decoder of a deprecation array, element by element. -/
def decodeDepList : List Jval → Option (List Deprecation)
  | [] => some []
  | x :: t =>
    match decodeDep x, decodeDepList t with
    | some d, some ds => some (d :: ds)
    | _, _ => none

/-- decoder of the `deprecations` field (a `null` slice reads as empty). -/
def decodeDeps (j : Jval) : Option (List Deprecation) :=
  match j with
  | .null => some []
  | .arr xs => decodeDepList xs
  | _ => none

/-- decoder of `models.DeprecationCache`. -/
def decodeCache (j : Jval) : Option DeprecationCache :=
  match j with
  | .null => some emptyCache
  | .obj kvs =>
    match jLookup kvs "last_updated" with
    | some (.num n) =>
      (match jLookup kvs "deprecations" with
       | some jd => (decodeDeps jd).map (fun ds => ⟨n, ds⟩)
       | none => some ⟨n, []⟩)
    | none =>
      (match jLookup kvs "deprecations" with
       | some jd => (decodeDeps jd).map (fun ds => ⟨0, ds⟩)
       | none => some ⟨0, []⟩)
    | some _ => none
  | _ => none

/-- encoder of `models.DeprecationCache` (`json.MarshalIndent`; the
indentation is whitespace only and invisible at the value level). -/
def encodeCache (c : DeprecationCache) : Jval :=
  .obj [("last_updated", .num c.lastUpdated),
        ("deprecations", .arr (c.deprecations.map encodeDep))]

/-- `CacheService.Load`: a missing file and unparseable content both yield
the fresh empty cache with a `nil` error; only a read failure on an
existing file is surfaced. -/
def Load (f : CacheFile) : Except String DeprecationCache :=
  match f with
  | .missing => .ok emptyCache
  | .readError e => .error e
  | .malformed => .ok emptyCache
  | .valid j =>
    match decodeCache j with
    | some c => .ok c
    | none => .ok emptyCache

/-- `CacheService.Save` on the successful write path: the persisted file
afterwards holds the serialized cache (a `MkdirAll`/`WriteFile` failure is
surfaced by Go's `Save` and leaves no new file; the round-trip statement is
about the successful path). -/
def Save (c : DeprecationCache) : CacheFile :=
  .valid (encodeCache c)

/-! ### `FetchReleases` (`flutter_api.go`)

The single `http.Get` of the function is modelled by an explicit
`Except`-valued response; the response body is a JSON value (a body that is
not valid JSON unmarshals to an error in both branches). -/

/-- an HTTP response: status code and parsed body. -/
structure HttpResp where
  status : Nat
  body : Jval

/-- unmarshal the body into `struct { Message string }`. -/
def decodeMessage (j : Jval) : Option String :=
  match j with
  | .null => some ""
  | .obj kvs => getStrField kvs "message"
  | _ => none

/-- decoder of one `models.FlutterRelease`. -/
def decodeRelease (j : Jval) : Option FlutterRelease :=
  match j with
  | .null => some ⟨"", "", "", "", false⟩
  | .obj kvs =>
    match getStrField kvs "name" with
    | none => none
    | some nm =>
      match getStrField kvs "tag_name" with
      | none => none
      | some tg =>
        match getStrField kvs "published_at" with
        | none => none
        | some pa =>
          match getStrField kvs "body" with
          | none => none
          | some bd =>
            match getBoolField kvs "prerelease" with
            | none => none
            | some pr => some ⟨nm, tg, pa, bd, pr⟩
  | _ => none

/-- decoder of a release array. -/
def decodeReleaseList : List Jval → Option (List FlutterRelease)
  | [] => some []
  | x :: t =>
    match decodeRelease x, decodeReleaseList t with
    | some r, some rs => some (r :: rs)
    | _, _ => none

/-- unmarshal the body into `[]models.FlutterRelease`. -/
def decodeReleases (j : Jval) : Option (List FlutterRelease) :=
  match j with
  | .null => some []
  | .arr xs => decodeReleaseList xs
  | _ => none

/-- the `sort.Slice` comparator `timeI.After(timeJ)` (false on any parse
error). -/
def releaseAfter (a b : FlutterRelease) : Bool :=
  match parseRFC3339 a.publishedAt, parseRFC3339 b.publishedAt with
  | some ta, some tb => tb < ta
  | _, _ => false

/-- `sort.Slice` newest-first (modelled by a stable merge sort over the
non-strict version of the comparator; `sort.Slice` itself fixes no
particular order among equal or unparseable elements). -/
def sortReleases (rs : List FlutterRelease) : List FlutterRelease :=
  rs.mergeSort (fun a b => !releaseAfter b a)

/-- the error message of the rate-limit branch. -/
def rateLimitMsg : String :=
  "GitHub API rate limit exceeded. Please wait before retrying or authenticate with a GitHub token"

/-- `FetchReleases`.  The first branch reproduces the source condition
`resp.StatusCode == 403 || resp.StatusCode == 401 || resp.StatusCode == 200`
verbatim; because it also captures status 200, the unmarshal-and-sort path
below it is unreachable. -/
def FetchReleases (resp : Except String HttpResp) :
    Except String (List FlutterRelease) :=
  match resp with
  | .error e => .error e
  | .ok r =>
    if r.status == 403 || r.status == 401 || r.status == 200 then
      match decodeMessage r.body with
      | some m =>
        if strContains m "API rate limit exceeded" then .error rateLimitMsg
        else .error ("GitHub API access forbidden (403): " ++ m)
      | none => .error ("GitHub API access forbidden (403): " ++ "")
    else if r.status != 200 then
      .error ("GitHub API returned status " ++ toString r.status)
    else
      match decodeReleases r.body with
      | none => .error "invalid JSON payload"
      | some rs => .ok (sortReleases rs)

/-- whether any of the six construct shapes of the forward loop matches a
line (regardless of the skip test or the keyword filter). -/
def matchesConstruct (l : String) : Bool :=
  (findSub false classRE l).isSome || (findSub false ctorRE l).isSome ||
  (findSub false getterRE l).isSome || (findSub false setterRE l).isSome ||
  (findSub false methodRE l).isSome || (findSub false propertyRE l).isSome

/-! ## Theorems -/

/-- helper for C1: a pattern-pass hit is in the result list. -/
theorem mem_patternPass {code : String} {p : RE × Deprecation}
    (hp : p ∈ knownPatterns) (hm : reMatches false p.1 code = true) :
    p.2 ∈ (knownPatterns.filter (fun q => reMatches false q.1 code)).map (·.2) :=
  List.mem_map_of_mem _ (List.mem_filter.mpr ⟨hp, hm⟩)

/-- C1: for every snippet and every Known-Pattern Table entry whose regex
matches somewhere in the snippet, `CheckCodeForDeprecations` contains that
entry's deprecation record (whatever the cache-load outcome). -/
theorem checkCode_contains_matching_pattern (code : String)
    (lr : Except String DeprecationCache) (p : RE × Deprecation)
    (hp : p ∈ knownPatterns) (hm : reMatches false p.1 code = true) :
    p.2 ∈ CheckCodeForDeprecations code lr := by
  unfold CheckCodeForDeprecations
  exact List.mem_append_left _ (mem_patternPass hp hm)

/-- witness for C1: the RaisedButton pattern fires on a snippet using
`RaisedButton`. -/
theorem checkCode_contains_matching_pattern_witness :
    raisedPair.2 ∈ CheckCodeForDeprecations "RaisedButton(onPressed: f)" (.ok ⟨0, []⟩) :=
  checkCode_contains_matching_pattern "RaisedButton(onPressed: f)" (.ok ⟨0, []⟩) raisedPair
    (by unfold knownPatterns; exact List.mem_cons_of_mem _ (List.mem_cons_self _ _))
    (by decide)

/-- C10: when the cache load fails, `CheckCodeForDeprecations` swallows the
error and returns exactly the known-pattern regex pass. -/
theorem checkCode_swallows_load_error (code e : String) :
    CheckCodeForDeprecations code (.error e)
      = (knownPatterns.filter (fun q => reMatches false q.1 code)).map (·.2) := by
  unfold CheckCodeForDeprecations
  simp

/-- C3: scanning the document
`class Widget { @Deprecated("Use Foo instead") void bar() {} }` yields the
single record `Widget.bar` with replacement `Foo` (the member name is
qualified by the class found by the backward scan, and the replacement is
extracted by the `use X (instead)?` pattern). -/
theorem scan_widget_bar_scenario :
    ScanFileForDeprecations
      ["class Widget \x7b",
       "  @Deprecated(\"Use Foo instead\")",
       "  void bar() \x7b\x7d",
       "\x7d"]
      = [{ api := "Widget.bar", replacement := "Foo", version := "",
           description := "Use Foo instead", exampleStr := "" }] := by
  decide

/-- helper for C4: a line matching none of the six construct shapes never
makes the forward loop break. -/
theorem resolveLine_eq_none (cls l : String) (h : matchesConstruct l = false) :
    resolveLine cls l = none := by
  unfold matchesConstruct at h
  have h1 : findSub false classRE l = none := by
    cases hh : findSub false classRE l with
    | none => rfl
    | some c => rw [hh] at h; simp at h
  have h2 : findSub false ctorRE l = none := by
    cases hh : findSub false ctorRE l with
    | none => rfl
    | some c => rw [hh] at h; simp at h
  have h3 : findSub false getterRE l = none := by
    cases hh : findSub false getterRE l with
    | none => rfl
    | some c => rw [hh] at h; simp at h
  have h4 : findSub false setterRE l = none := by
    cases hh : findSub false setterRE l with
    | none => rfl
    | some c => rw [hh] at h; simp at h
  have h5 : findSub false methodRE l = none := by
    cases hh : findSub false methodRE l with
    | none => rfl
    | some c => rw [hh] at h; simp at h
  have h6 : findSub false propertyRE l = none := by
    cases hh : findSub false propertyRE l with
    | none => rfl
    | some c => rw [hh] at h; simp at h
  simp [resolveLine, h1, h2, h3, h4, h5, h6]

/-- helper for C4: the forward loop returns the empty symbol when every
line of its window is skipped or matches no construct shape. -/
theorem forwardScan_empty (lines : List String) (cls : String) :
    ∀ rem j, (∀ k, j ≤ k → k < j + rem →
        skipLine (strTrim (lines.getD k "")) = true
        ∨ matchesConstruct (strTrim (lines.getD k "")) = false) →
      forwardScan cls lines j rem = "" := by
  intro rem
  induction rem with
  | zero => intro j _; rfl
  | succ n ih =>
    intro j h
    cases hsk : skipLine (strTrim (lines.getD j "")) with
    | true =>
      simp only [forwardScan, hsk, if_true]
      exact ih (j + 1) (fun k hk1 hk2 => h k (by omega) (by omega))
    | false =>
      have hcon : matchesConstruct (strTrim (lines.getD j "")) = false := by
        rcases h j (le_refl j) (by omega) with hs | hc
        · rw [hs] at hsk; exact Bool.noConfusion hsk
        · exact hc
      have hres := resolveLine_eq_none cls _ hcon
      simp only [forwardScan, hsk, hres, Bool.false_eq_true, if_false]
      exact ih (j + 1) (fun k hk1 hk2 => h k (by omega) (by omega))

/-- C4: for every document and line index, if every line of the 10-line
forward window is skipped (blank, comment or annotation) or matches none of
the six construct shapes, the scanner emits no record for that line — in
particular a deprecation marker there yields nothing. -/
theorem scanAt_no_construct (lines : List String) (i : Nat)
    (hwin : ∀ k, i + 1 ≤ k → k ≤ i + 10 →
        skipLine (strTrim (lines.getD k "")) = true
        ∨ matchesConstruct (strTrim (lines.getD k "")) = false) :
    scanAt lines i = none := by
  unfold scanAt
  cases hm : findSub false deprecatedRE (strTrim (lines.getD i "")) with
  | none => rfl
  | some caps =>
    have hfwd : forwardScan (backwardClass lines i) lines (i + 1) 10 = "" :=
      forwardScan_empty lines _ 10 (i + 1) (fun k hk1 hk2 => hwin k hk1 (by omega))
    simp [hfwd]

/-- witness for C4: a marker followed only by a comment line yields no
record. -/
theorem scanAt_no_construct_witness :
    scanAt ["@Deprecated(\"gone\")", "// just a comment"] 0 = none :=
  scanAt_no_construct _ 0 (by
    intro k hk1 hk2
    rcases k with _ | _ | n
    · omega
    · exact Or.inl (by decide)
    · exact Or.inl (by show skipLine (strTrim "") = true; decide))

/-- C2: with a loaded cache younger than the 24-hour TTL, `UpdateCache`
returns success with no fetch and no save (the persisted state is
untouched); with a loaded cache older than the TTL it performs exactly one
`FetchReleases` call. -/
theorem updateCache_staleness_gate (env : UpdateEnv) (c : DeprecationCache)
    (hload : env.loadResult = .ok c) :
    (env.now - c.lastUpdated < CACHE_DURATION → UpdateCache env = ⟨.ok (), 0, none⟩)
    ∧ (CACHE_DURATION < env.now - c.lastUpdated → (UpdateCache env).fetchCount = 1) := by
  constructor
  · intro h
    simp [UpdateCache, hload, h]
  · intro h
    have hn : ¬(env.now - c.lastUpdated < CACHE_DURATION) := lt_asymm h
    rcases hf : env.fetchResult with e | rs <;>
      simp [UpdateCache, hload, hn, hf]

/-- witness for C2: a 1-hour-old cache short-circuits; a 25-hour-old cache
triggers the fetch even when the fetch then fails. -/
theorem updateCache_staleness_gate_witness :
    UpdateCache ⟨.ok ⟨0, []⟩, 3600, .error "net down", .ok ()⟩ = ⟨.ok (), 0, none⟩
    ∧ (UpdateCache ⟨.ok ⟨0, []⟩, 90000, .error "net down", .ok ()⟩).fetchCount = 1 :=
  ⟨(updateCache_staleness_gate ⟨.ok ⟨0, []⟩, 3600, .error "net down", .ok ()⟩
      ⟨0, []⟩ rfl).1 (by decide),
   (updateCache_staleness_gate ⟨.ok ⟨0, []⟩, 90000, .error "net down", .ok ()⟩
      ⟨0, []⟩ rfl).2 (by decide)⟩

/-- C7: on a successful stale refresh the cache handed to `Save` carries
the fresh timestamp and a deprecation list that is exactly the release-notes
harvest followed by the six Known-Pattern Table entries stamped
`"Multiple versions"` — independent of whatever list was loaded
(replacement, not merge). -/
theorem updateCache_replaces_list (env : UpdateEnv) (c : DeprecationCache)
    (rs : List FlutterRelease)
    (hload : env.loadResult = .ok c)
    (hstale : ¬(env.now - c.lastUpdated < CACHE_DURATION))
    (hfetch : env.fetchResult = .ok rs)
    (hsave : env.saveResult = .ok ()) :
    UpdateCache env =
      ⟨.ok (), 1, some ⟨env.now, harvestFromReleases env.now rs ++ stampedKnownDeps⟩⟩ := by
  simp [UpdateCache, hload, hstale, hfetch, hsave, ExtractDeprecationsFromReleaseNotes]

/-- witness for C7: a stale cache with a non-empty previous list is
refreshed from an empty release list; the saved list is exactly the stamped
Known-Pattern Table. -/
theorem updateCache_replaces_list_witness :
    UpdateCache ⟨.ok ⟨-90000, [⟨"Old.api", "", "", "", ""⟩]⟩, 0, .ok [], .ok ()⟩ =
      ⟨.ok (), 1, some ⟨0, harvestFromReleases 0 [] ++ stampedKnownDeps⟩⟩ :=
  updateCache_replaces_list ⟨.ok ⟨-90000, [⟨"Old.api", "", "", "", ""⟩]⟩, 0, .ok [], .ok ()⟩
    ⟨-90000, [⟨"Old.api", "", "", "", ""⟩]⟩ [] rfl (by decide) rfl rfl

/-- C8: the value handed to `Save` (when any) carries `LastUpdated = now`,
strictly later than the loaded timestamp; on the load-failure path, the
fresh-cache path and the fetch-failure path nothing is saved, so the
persisted timestamp can only move forward and only at the moment a refresh
persists. -/
theorem updateCache_timestamp_discipline (env : UpdateEnv) :
    (∀ c c1, env.loadResult = .ok c → (UpdateCache env).saved = some c1 →
        c1.lastUpdated = env.now ∧ c.lastUpdated < c1.lastUpdated)
    ∧ (∀ e, env.loadResult = .error e → (UpdateCache env).saved = none)
    ∧ (∀ c, env.loadResult = .ok c → env.now - c.lastUpdated < CACHE_DURATION →
        (UpdateCache env).saved = none)
    ∧ (∀ e, env.fetchResult = .error e → (UpdateCache env).saved = none) := by
  refine ⟨?_, ?_, ?_, ?_⟩
  · intro c c1 hl hs
    by_cases hfr : env.now - c.lastUpdated < CACHE_DURATION
    · simp [UpdateCache, hl, hfr] at hs
    · rcases hf : env.fetchResult with e | rs
      · simp [UpdateCache, hl, hfr, hf] at hs
      · simp [UpdateCache, hl, hfr, hf] at hs
        have hC : CACHE_DURATION ≤ env.now - c.lastUpdated := not_lt.mp hfr
        have hC2 : (0 : Int) < CACHE_DURATION := by decide
        constructor
        · rw [← hs]
        · rw [← hs]
          show c.lastUpdated < env.now
          omega
  · intro e hl
    simp [UpdateCache, hl]
  · intro c hl hfr
    simp [UpdateCache, hl, hfr]
  · intro e hf
    rcases hl : env.loadResult with e1 | c
    · simp [UpdateCache, hl]
    · by_cases hfr : env.now - c.lastUpdated < CACHE_DURATION
      · simp [UpdateCache, hl, hfr]
      · simp [UpdateCache, hl, hfr, hf]

/-- witness for C8: a failed cache load saves nothing. -/
theorem updateCache_timestamp_discipline_witness :
    (UpdateCache ⟨.error "cannot read cache", 0, .ok [], .ok ()⟩).saved = none :=
  (updateCache_timestamp_discipline ⟨.error "cannot read cache", 0, .ok [], .ok ()⟩).2.1
    "cannot read cache" rfl

/-- C6: `Load` yields the empty cache (zero timestamp, empty list) with no
error both when the persisted file is missing and when its content cannot be
parsed — whether the text is not JSON at all or the JSON does not decode as
a cache; a read failure is the only surfaced error. -/
theorem load_swallows_missing_and_parse_failure :
    Load CacheFile.missing = .ok emptyCache
    ∧ Load CacheFile.malformed = .ok emptyCache
    ∧ ∀ j : Jval, decodeCache j = none → Load (CacheFile.valid j) = .ok emptyCache := by
  refine ⟨rfl, rfl, ?_⟩
  intro j hj
  show (match decodeCache j with
        | some c => Except.ok c
        | none => Except.ok emptyCache) = Except.ok emptyCache
  rw [hj]

/-- witness for C6: a persisted JSON string is not a cache object and loads
as the empty cache. -/
theorem load_swallows_witness :
    Load (CacheFile.valid (Jval.str "not a cache")) = .ok emptyCache :=
  load_swallows_missing_and_parse_failure.2.2 (Jval.str "not a cache") rfl

/-- helper for C9: one record survives the encode/decode round trip. -/
theorem decodeDep_encodeDep (d : Deprecation) : decodeDep (encodeDep d) = some d := by
  obtain ⟨api, rep, ver, des, ex⟩ := d
  by_cases h : ex = ""
  · subst h; rfl
  · unfold encodeDep
    rw [if_neg (by simpa using h)]
    rfl

/-- helper for C9: a record list survives the round trip. -/
theorem decodeDepList_map_encodeDep (l : List Deprecation) :
    decodeDepList (l.map encodeDep) = some l := by
  induction l with
  | nil => rfl
  | cons d t ih => simp [decodeDepList, decodeDep_encodeDep, ih]

/-- helper for C9: the whole cache survives the round trip. -/
theorem decodeCache_encodeCache (c : DeprecationCache) :
    decodeCache (encodeCache c) = some c := by
  obtain ⟨lu, deps⟩ := c
  calc decodeCache (encodeCache ⟨lu, deps⟩)
      = (decodeDepList (deps.map encodeDep)).map
          (fun ds => (⟨lu, ds⟩ : DeprecationCache)) := rfl
    _ = some ⟨lu, deps⟩ := by rw [decodeDepList_map_encodeDep]; rfl

/-- C9: `Save` followed by `Load` restores a structurally equal cache:
same timestamp, same record sequence field by field. -/
theorem save_load_roundtrip (c : DeprecationCache) : Load (Save c) = .ok c := by
  show (match decodeCache (encodeCache c) with
        | some c1 => Except.ok c1
        | none => Except.ok emptyCache) = Except.ok c
  rw [decodeCache_encodeCache]

/-- C5 (bug evaluation): an HTTP 200 response whose body is a well-formed
JSON release list makes `FetchReleases` return the forbidden error with an
empty detail — the condition
`resp.StatusCode == 403 || resp.StatusCode == 401 || resp.StatusCode == 200`
routes success responses into the error branch, where unmarshalling the
array into the message struct fails and leaves an empty message — while a
403 with a rate-limit payload does surface the distinguishable rate-limit
error. -/
theorem fetchReleases_200_takes_error_branch :
    FetchReleases (.ok ⟨200,
        .arr [.obj [("name", .str "Flutter 3.24.0"), ("tag_name", .str "v3.24.0"),
                    ("published_at", .str "2024-08-06T00:00:00Z"),
                    ("body", .str "release notes"), ("prerelease", .bool false)]]⟩)
      = .error ("GitHub API access forbidden (403): " ++ "")
    ∧ FetchReleases (.ok ⟨403,
        .obj [("message", .str "API rate limit exceeded for 1.2.3.4")]⟩)
      = .error rateLimitMsg := by
  exact ⟨rfl, rfl⟩

end FlutterSrv
